import Mathlib

/-!
Verification model of the `rudder` Docker-API client (package `rudder`,
files `client.go` and the build-image file).

Go strings that only flow through comparisons and concatenation are
modelled as Lean `String`; strings whose raw bytes matter (JSON and
base64 payloads) are modelled as byte lists (`GoStr := List Nat`,
each byte `< 256` where it matters).
-/

namespace Rudder

/-! ## JSON progress events (`jsonMessage`, client.go lines 161-166) -/

/-- Structure jsonMessage from client.go: one decoded progress event.
All fields are optional strings (`omitempty`); the zero value is `""`. -/
structure jsonMessage where
  Status : String
  Progress : String
  Error : String
  Stream : String
deriving DecidableEq, Repr

/-- The JSON-event decode loop of `Client.stream` (client.go lines 226-244),
applied to the sequence of events decoded from the body.  Returns the text
written to the `stdout` sink and `some msg` when the loop returned
`errors.New(m.Error)` (`none` = clean EOF).  Mirrors the chain in the source
`if m.Stream != "" {...} else if m.Progress != "" {...} else if m.Error != ""
{ return } ; if m.Status != "" {...}`: the loop aborts on an event exactly
when its `Stream` and `Progress` fields are empty and `Error` is not. -/
def streamJSONEvents : List jsonMessage → String × Option String
  | [] => ("", none)
  | m :: rest =>
    if m.Stream = "" ∧ m.Progress = "" ∧ m.Error ≠ "" then
      ("", some m.Error)
    else
      let pre :=
        if m.Stream ≠ "" then m.Stream
        else if m.Progress ≠ "" then m.Status ++ " " ++ m.Progress ++ "\r"
        else ""
      let post := if m.Status ≠ "" then m.Status ++ "\n" else ""
      let r := streamJSONEvents rest
      (pre ++ post ++ r.1, r.2)

/-! ## Response handling of `Client.stream` (client.go lines 212-252) -/

/-- The part of an HTTP response that `Client.stream` inspects after the
request succeeded: status code, the `Content-Type` header value, and the
raw body text. -/
structure Response where
  StatusCode : Int
  ContentType : String
  Body : String
deriving DecidableEq, Repr

/-- What `Client.stream` does with a received response: convert it to an
API error, or hand the body to one of the four decode branches. -/
inductive StreamOutcome where
  /-- The branch `newError(resp.StatusCode, body)` (client.go lines 212-217):
  the whole body is read and returned inside the error. -/
  | apiError (status : Int) (body : String)
  /-- With `rawJSONStream`: `io.Copy(stdout, resp.Body)` (lines 222-225). -/
  | jsonRawCopy (out : String)
  /-- the JSON-event decode loop (lines 226-244), i.e. `streamJSONEvents`
  applied to the decoded events of the body. -/
  | jsonEvents
  /-- With `setRawTerminal`: `io.Copy(stdout, resp.Body)` (line 247). -/
  | rawCopy (out : String)
  /-- The branch `stdCopy(stdout, stderr, resp.Body)` (line 249): the binary
  channel demultiplexer. -/
  | demux
deriving DecidableEq, Repr

/-- Branching of `Client.stream` on the received response
(client.go lines 212-252): status check, then the `Content-Type`
comparison, then the `rawJSONStream` / `setRawTerminal` flags. -/
def streamDispatch (resp : Response) (setRawTerminal rawJSONStream : Bool) :
    StreamOutcome :=
  if resp.StatusCode < 200 ∨ resp.StatusCode ≥ 400 then
    .apiError resp.StatusCode resp.Body
  else if resp.ContentType = "application/json" then
    if rawJSONStream then .jsonRawCopy resp.Body else .jsonEvents
  else if setRawTerminal then .rawCopy resp.Body else .demux

/-! ## Endpoint resolution (`parseEndpoint`, client.go lines 40-82) -/

/-- Index of the first occurrence of a character, as scanned by the Go
byte-index helper used by net.SplitHostPort. -/
def firstIdx : List Char → Char → Option Nat
  | [], _ => none
  | a :: rest, c => if a = c then some 0 else (firstIdx rest c).map (· + 1)

/-- Index of the last occurrence of a character (the `last` helper of
net.SplitHostPort). -/
def lastIdx : List Char → Char → Option Nat
  | [], _ => none
  | a :: rest, c =>
    match lastIdx rest c with
    | some i => some (i + 1)
    | none => if a = c then some 0 else none

/-- The `Err` field of the net.AddrError values SplitHostPort can build.
`missingPort` renders as "missing port in address", `tooManyColons` as
"too many colons in address"; the bracket errors report a missing or
unexpected square bracket. -/
inductive AddrErr where
  | missingPort
  | tooManyColons
  | missingCloseBracket
  | unexpectedOpenBracket
  | unexpectedCloseBracket
deriving DecidableEq, Repr

/-- net.SplitHostPort from the Go standard library, which parseEndpoint
calls on `u.Host`: the port starts after the last colon; a leading square
bracket delimits an IPv6 host. -/
def splitHostPort (hostPort : String) : Except AddrErr (String × String) :=
  let l := hostPort.toList
  match lastIdx l ':' with
  | none => .error .missingPort
  | some i =>
    if l.headD ' ' = '[' then
      match firstIdx l ']' with
      | none => .error .missingCloseBracket
      | some en =>
        if en + 1 = l.length then .error .missingPort
        else if en + 1 = i then
          if firstIdx (l.drop 1) '[' ≠ none then .error .unexpectedOpenBracket
          else if firstIdx (l.drop (en + 1)) ']' ≠ none then
            .error .unexpectedCloseBracket
          else .ok (String.mk ((l.take en).drop 1), String.mk (l.drop (i + 1)))
        else if (l.drop (en + 1)).headD ' ' = ':' then .error .tooManyColons
        else .error .missingPort
    else
      if firstIdx (l.take i) ':' ≠ none then .error .tooManyColons
      else if firstIdx l '[' ≠ none then .error .unexpectedOpenBracket
      else if firstIdx l ']' ≠ none then .error .unexpectedCloseBracket
      else .ok (String.mk (l.take i), String.mk (l.drop (i + 1)))

/-- Decimal digit run for the strconv conversion behind com.StrTo. -/
def atoiDigits (l : List Char) : Option Nat :=
  if l ≠ [] ∧ l.all (fun c => 48 ≤ c.toNat && c.toNat ≤ 57) then
    some (l.foldl (fun acc c => acc * 10 + (c.toNat - 48)) 0)
  else none

/-- strconv integer parsing (optional sign, then decimal digits). -/
def atoi (s : String) : Option Int :=
  match s.toList with
  | [] => none
  | c :: rest =>
    if c = '-' then (atoiDigits rest).map (fun n => -(n : Int))
    else if c = '+' then (atoiDigits rest).map (fun n => (n : Int))
    else (atoiDigits (c :: rest)).map (fun n => (n : Int))

/-- com.StrTo(port).MustInt(): the strconv conversion, 0 when it fails.
Overflow clamping of strconv is not modelled: a clamped huge value, like
the exact one, is neither 2376 nor inside (0, 65536), so parseEndpoint
cannot distinguish the two. -/
def mustInt (s : String) : Int := (atoi s).getD 0

/-- The URL value produced by url.Parse, as far as parseEndpoint reads it. -/
structure URL where
  Scheme : String
  Host : String
  Path : String
deriving DecidableEq, Repr

instance {e a : Type} [DecidableEq e] [DecidableEq a] : DecidableEq (Except e a) :=
  fun x y =>
    match x, y with
    | .error u, .error v =>
      if h : u = v then .isTrue (by rw [h]) else .isFalse (by intro hc; cases hc; exact h rfl)
    | .ok u, .ok v =>
      if h : u = v then .isTrue (by rw [h]) else .isFalse (by intro hc; cases hc; exact h rfl)
    | .error _, .ok _ => .isFalse (by intro hc; cases hc)
    | .ok _, .error _ => .isFalse (by intro hc; cases hc)

/-- The message of ErrInvalidEndpoint (client.go line 25). -/
def errInvalidEndpoint : String := "endpoint is not valid"

/-- Lines 61-81 of parseEndpoint: the scheme whitelist and the port-range
check, reached when the tcp branch did not return early. -/
def parseEndpointChecks (u : URL) : Except String URL :=
  if u.Scheme ≠ "http" ∧ u.Scheme ≠ "https" ∧ u.Scheme ≠ "unix" then
    .error errInvalidEndpoint
  else if u.Scheme ≠ "unix" then
    match splitHostPort u.Host with
    | .error e =>
      if e = .missingPort then .ok u else .error errInvalidEndpoint
    | .ok (_, port) =>
      if 0 < mustInt port ∧ mustInt port < 65536 then .ok u
      else .error errInvalidEndpoint
  else .ok u

/-- parseEndpoint (client.go lines 40-82), applied to the URL produced by
url.Parse (a string url.Parse rejects fails with ErrInvalidEndpoint before
this logic runs).  The tcp branch returns `u` unchanged — scheme still
"tcp" — when SplitHostPort reports a missing port (line 50). -/
def parseEndpoint (u : URL) : Except String URL :=
  if u.Scheme = "tcp" then
    match splitHostPort u.Host with
    | .error e =>
      if e = .missingPort then .ok u
      else .error errInvalidEndpoint
    | .ok (_, port) =>
      if mustInt port = 2376 then parseEndpointChecks { u with Scheme := "https" }
      else parseEndpointChecks { u with Scheme := "http" }
  else parseEndpointChecks u

/-! ## Auth headers (`headersWithAuth`, build-image file lines 36-51)

JSON and base64 payloads are byte strings in Go, so this part models
strings as byte lists.  A byte list is well formed when every entry is
below 256. -/

/-- A Go string viewed as its bytes. -/
abbrev GoStr := List Nat

/-- Every byte of the string is an actual byte. -/
def validStr (s : GoStr) : Prop := ∀ b ∈ s, b < 256

instance (s : GoStr) : Decidable (validStr s) := by
  unfold validStr; infer_instance

/-- Lowercase hex digit byte, as used by the escapes of the JSON encoder. -/
def hexDigit (n : Nat) : Nat := if n < 10 then 48 + n else 87 + n

/-- The string escaping of the Go encoding/json encoder (with its default
HTML escaping): backslash-escapes for the quote, the backslash, newline,
carriage return and tab; other control bytes and the three
HTML-significant ASCII bytes become lowercase hex escapes; everything
else passes through.  (The replacement of invalid UTF-8 by the encoder with
the replacement rune is not modelled; fields are taken to be valid text.) -/
def escapeBytes : GoStr → GoStr
  | [] => []
  | b :: rest =>
    (if b = 34 then [92, 34]
     else if b = 92 then [92, 92]
     else if b = 10 then [92, 110]
     else if b = 13 then [92, 114]
     else if b = 9 then [92, 116]
     else if b < 32 ∨ b = 60 ∨ b = 62 ∨ b = 38 then
       [92, 117, 48, 48, hexDigit (b / 16), hexDigit (b % 16)]
     else [b]) ++ escapeBytes rest

/-- A JSON string literal: quote, escaped body, quote. -/
def jsonQuote (s : GoStr) : GoStr := 34 :: (escapeBytes s ++ [34])

/-- Structure AuthConfiguration (build-image file lines 23-28): four string
fields, all tagged omitempty. -/
structure AuthConfiguration where
  Username : GoStr
  Password : GoStr
  Email : GoStr
  ServerAddress : GoStr
deriving DecidableEq, Repr

/-- All four fields are well-formed byte strings. -/
def validAuth (a : AuthConfiguration) : Prop :=
  validStr a.Username ∧ validStr a.Password ∧ validStr a.Email ∧
    validStr a.ServerAddress

instance (a : AuthConfiguration) : Decidable (validAuth a) := by
  unfold validAuth; infer_instance

/-- Bytes of the JSON key "username". -/
def usernameKey : GoStr := [117, 115, 101, 114, 110, 97, 109, 101]

/-- Bytes of the JSON key "password". -/
def passwordKey : GoStr := [112, 97, 115, 115, 119, 111, 114, 100]

/-- Bytes of the JSON key "email". -/
def emailKey : GoStr := [101, 109, 97, 105, 108]

/-- Bytes of the JSON key "serveraddress". -/
def serveraddressKey : GoStr := [115, 101, 114, 118, 101, 114, 97, 100, 100, 114, 101, 115, 115]

/-- One optional object member: omitted when the value is empty
(the omitempty tag on every AuthConfiguration field). -/
def optMember (k v : GoStr) : List (GoStr × GoStr) :=
  if v = [] then [] else [(k, v)]

/-- The members json.Marshal emits for an AuthConfiguration, in struct
field order, respecting omitempty. -/
def authMembers (a : AuthConfiguration) : List (GoStr × GoStr) :=
  optMember usernameKey a.Username ++ (optMember passwordKey a.Password ++
    (optMember emailKey a.Email ++ optMember serveraddressKey a.ServerAddress))

/-- Comma-separated rendering of object members, each as
quoted-key colon quoted-value. -/
def renderMembers : List (GoStr × GoStr) → GoStr
  | [] => []
  | [(k, v)] => jsonQuote k ++ [58] ++ jsonQuote v
  | (k, v) :: rest => jsonQuote k ++ [58] ++ jsonQuote v ++ [44] ++ renderMembers rest

/-- json.Marshal of an AuthConfiguration: a braced object of its
non-empty fields. -/
def marshalAuth (a : AuthConfiguration) : GoStr :=
  123 :: (renderMembers (authMembers a) ++ [125])

/-- Value of a single-character JSON escape (after the backslash). -/
def unescapeByte (e : Nat) : Option Nat :=
  if e = 34 then some 34
  else if e = 92 then some 92
  else if e = 47 then some 47
  else if e = 110 then some 10
  else if e = 114 then some 13
  else if e = 116 then some 9
  else if e = 98 then some 8
  else if e = 102 then some 12
  else none

/-- Value of one hex digit byte (both letter cases). -/
def hexVal (c : Nat) : Option Nat :=
  if 48 ≤ c ∧ c ≤ 57 then some (c - 48)
  else if 97 ≤ c ∧ c ≤ 102 then some (c - 87)
  else if 65 ≤ c ∧ c ≤ 70 then some (c - 55)
  else none

/-- One escape sequence after a backslash: the decoded byte and the
remaining input.  Hex escapes are only accepted for ASCII code points —
the only ones the encoder modelled above ever produces. -/
def parseEscapeSeq (s : GoStr) : Option (Nat × GoStr) :=
  match s with
  | [] => none
  | e :: rest =>
    match unescapeByte e with
    | some c => some (c, rest)
    | none =>
      if e = 117 then
        match rest with
        | h1 :: h2 :: h3 :: h4 :: rest2 =>
          match hexVal h1, hexVal h2, hexVal h3, hexVal h4 with
          | some d1, some d2, some d3, some d4 =>
            let n := ((d1 * 16 + d2) * 16 + d3) * 16 + d4
            if n < 128 then some (n, rest2) else none
          | _, _, _, _ => none
        | _ => none
      else none

/-- JSON string body: consume until the closing quote, resolving escapes;
returns the decoded bytes and the input after the closing quote.  The
fuel argument (one unit per decoded byte) only makes the recursion
structural; the wrapper below supplies enough for any input. -/
def parseStringBodyAux : Nat → GoStr → Option (GoStr × GoStr)
  | 0, _ => none
  | fuel + 1, s =>
    match s with
    | [] => none
    | b :: rest =>
      if b = 34 then some ([], rest)
      else if b = 92 then
        match parseEscapeSeq rest with
        | some (c, rest2) =>
          match parseStringBodyAux fuel rest2 with
          | some (v, r) => some (c :: v, r)
          | none => none
        | none => none
      else
        match parseStringBodyAux fuel rest with
        | some (v, r) => some (b :: v, r)
        | none => none

/-- JSON string body at full fuel (every decoded byte consumes at least
one input byte, so the input length bounds the recursion depth). -/
def parseStringBody (s : GoStr) : Option (GoStr × GoStr) :=
  parseStringBodyAux s.length s

/-- One `"key":"value"` member (the values of these objects are always
strings).  Returns the member and the input after it. -/
def parseMember (s : GoStr) : Option ((GoStr × GoStr) × GoStr) :=
  match s with
  | 34 :: rest =>
    match parseStringBody rest with
    | some (k, r1) =>
      match r1 with
      | 58 :: 34 :: r2 =>
        match parseStringBody r2 with
        | some (v, r3) => some ((k, v), r3)
        | none => none
      | _ => none
    | none => none
  | _ => none

/-- Comma-separated members ending exactly at a final closing brace.
`fuel` bounds the number of members (callers pass the input length). -/
def parseMembersAux : Nat → GoStr → Option (List (GoStr × GoStr))
  | fuel, s =>
    match parseMember s with
    | none => none
    | some (kv, r) =>
      match r with
      | [125] => some [kv]
      | 44 :: r2 =>
        match fuel with
        | 0 => none
        | fuel' + 1 =>
          match parseMembersAux fuel' r2 with
          | some ms => some (kv :: ms)
          | none => none
      | _ => none

/-- A flat JSON object of string members, consuming the whole input. -/
def parseObject (s : GoStr) : Option (List (GoStr × GoStr)) :=
  match s with
  | 123 :: rest =>
    if rest = [125] then some []
    else parseMembersAux rest.length rest
  | _ => none

/-- First member with the given key (the objects built here never repeat
a key). -/
def lookupMember : List (GoStr × GoStr) → GoStr → Option GoStr
  | [], _ => none
  | (k, v) :: rest, key => if k = key then some v else lookupMember rest key

/-- json.Unmarshal of an AuthConfiguration: parse the object and fill
each field from its member, the zero value (empty) when absent. -/
def unmarshalAuth (s : GoStr) : Option AuthConfiguration :=
  match parseObject s with
  | none => none
  | some ms =>
    some { Username := (lookupMember ms usernameKey).getD []
           Password := (lookupMember ms passwordKey).getD []
           Email := (lookupMember ms emailKey).getD []
           ServerAddress := (lookupMember ms serveraddressKey).getD [] }

/-- URL-safe base64 alphabet (RFC 4648): byte of the character for a
6-bit group. -/
def b64Char (n : Nat) : Nat :=
  if n < 26 then 65 + n
  else if n < 52 then 97 + (n - 26)
  else if n < 62 then 48 + (n - 52)
  else if n = 62 then 45
  else 95

/-- Inverse of the URL-safe base64 alphabet. -/
def b64Dec (c : Nat) : Option Nat :=
  if 65 ≤ c ∧ c ≤ 90 then some (c - 65)
  else if 97 ≤ c ∧ c ≤ 122 then some (c - 97 + 26)
  else if 48 ≤ c ∧ c ≤ 57 then some (c - 48 + 52)
  else if c = 45 then some 62
  else if c = 95 then some 63
  else none

/-- base64.URLEncoding.EncodeToString: three input bytes per four output
characters, padded with one or two `=` (byte 61) as Go does. -/
def base64URLEncode : GoStr → GoStr
  | b0 :: b1 :: b2 :: rest =>
    b64Char (b0 / 4) :: b64Char (b0 % 4 * 16 + b1 / 16) ::
      b64Char (b1 % 16 * 4 + b2 / 64) :: b64Char (b2 % 64) ::
        base64URLEncode rest
  | [b0, b1] => [b64Char (b0 / 4), b64Char (b0 % 4 * 16 + b1 / 16),
                 b64Char (b1 % 16 * 4), 61]
  | [b0] => [b64Char (b0 / 4), b64Char (b0 % 4 * 16), 61, 61]
  | [] => []

/-- base64.URLEncoding decoding: four characters per three bytes, with
trailing padding closing the input. -/
def base64URLDecode : GoStr → Option GoStr
  | [] => some []
  | c0 :: c1 :: c2 :: c3 :: rest =>
    match b64Dec c0, b64Dec c1 with
    | some n0, some n1 =>
      if c2 = 61 then
        if c3 = 61 then
          if rest = [] then some [n0 * 4 + n1 / 16] else none
        else none
      else
        match b64Dec c2 with
        | some n2 =>
          if c3 = 61 then
            if rest = [] then some [n0 * 4 + n1 / 16, n1 % 16 * 16 + n2 / 4]
            else none
          else
            match b64Dec c3, base64URLDecode rest with
            | some n3, some tail =>
              some ((n0 * 4 + n1 / 16) :: (n1 % 16 * 16 + n2 / 4) ::
                (n2 % 4 * 64 + n3) :: tail)
            | _, _ => none
        | none => none
    | _, _ => none
  | _ => none

/-- Structure AuthConfigurations (build-image file lines 32-34): a map from
registry address to AuthConfiguration under the json key "configs"
(no omitempty), modelled as an association list in the sorted key order
Go map marshalling emits. -/
structure AuthConfigurations where
  Configs : List (GoStr × AuthConfiguration)
deriving DecidableEq, Repr

/-- Bytes of the JSON key "configs". -/
def configsKey : GoStr := [99, 111, 110, 102, 105, 103, 115]

/-- The members of the inner configs object: each registry address maps
to the marshalled AuthConfiguration (already a rendered object). -/
def renderConfigEntries : List (GoStr × AuthConfiguration) → GoStr
  | [] => []
  | [(k, a)] => jsonQuote k ++ [58] ++ marshalAuth a
  | (k, a) :: rest => jsonQuote k ++ [58] ++ marshalAuth a ++ [44] ++ renderConfigEntries rest

/-- json.Marshal of AuthConfigurations.  An empty entry list stands for
the zero value (a nil map), which Go marshals as null
(bytes of "null"); a populated map becomes a braced object. -/
def marshalAuthConfigurations (cs : AuthConfigurations) : GoStr :=
  123 :: (jsonQuote configsKey ++ [58] ++
    (match cs.Configs with
     | [] => [110, 117, 108, 108]
     | entries => 123 :: (renderConfigEntries entries ++ [125])) ++ [125])

/-- headersWithAuth (build-image file lines 36-51) as BuildImage calls it
(one AuthConfiguration, then one AuthConfigurations): each value is
marshalled and URL-safe-base64 encoded under its header name.
json.Marshal cannot fail on these types, so the error path of the source
never triggers and the function is total here. -/
def headersWithAuth (auth : AuthConfiguration) (cfgs : AuthConfigurations) :
    List (String × GoStr) :=
  [("X-Registry-Auth", base64URLEncode (marshalAuth auth)),
   ("X-Registry-Config", base64URLEncode (marshalAuthConfigurations cfgs))]

/-! ## Query-string encoding (`queryString`, client.go lines 256-312) -/

/-- The reflect kinds queryString handles that occur in the option
records of this repository (reflect.Bool, the integer kinds,
reflect.String).  The
float, pointer and map cases of the source are not exercised by any
option type or claim here and are left out. -/
inductive FieldValue where
  | boolVal (b : Bool)
  | intVal (i : Int)
  | strVal (s : String)
deriving DecidableEq, Repr

/-- One struct field as reflection presents it to queryString: Go field
name, PkgPath (non-empty exactly for unexported fields), the qs tag
value (empty when the tag is absent), and the field value. -/
structure Field where
  Name : String
  PkgPath : String
  Tag : String
  Value : FieldValue
deriving DecidableEq, Repr

/-- The query items queryString adds for one field (client.go lines
268-309): unexported fields and fields tagged "-" are skipped; the key
is the qs tag, or the lowercased field name when the tag is absent;
false booleans, non-positive integers and empty strings are omitted; a
true boolean is emitted as "1" and a positive integer in decimal. -/
def fieldItems (f : Field) : List (String × String) :=
  if f.PkgPath ≠ "" then []
  else if f.Tag = "-" then []
  else
    let key := if f.Tag = "" then f.Name.toLower else f.Tag
    match f.Value with
    | .boolVal b => if b then [(key, "1")] else []
    | .intVal i => if 0 < i then [(key, toString i)] else []
    | .strVal s => if s ≠ "" then [(key, s)] else []

/-- All items queryString collects, in struct field order.
(url.Values.Encode, which percent-escapes these items and sorts them
into the final string, is Go library code; the claims are settled at the
item level.) -/
def queryItems : List Field → List (String × String)
  | [] => []
  | f :: rest => fieldItems f ++ queryItems rest

/-! ## BuildImage (build-image file lines 55-101) -/

/-- Structure BuildImageOption (lines 55-70).  io.Reader / io.Writer fields are
modelled by their nil-ness (and, for the input stream, the bytes it
yields). -/
structure BuildImageOption where
  Name : String
  SuppressOutput : Bool
  NoCache : Bool
  Pull : Bool
  RmTmpContainer : Bool
  ForceRmTmpContainer : Bool
  Remote : String
  InputStream : Option GoStr
  OutputStream : Option Unit
  RawJSONStream : Bool
  Auth : AuthConfiguration
  AuthConfigs : AuthConfigurations
  ContextDir : String

/-- The reflected field list of BuildImageOption as queryString sees it:
every field is exported, the qs tags come from the struct declaration.
The fields tagged "-" carry a placeholder value — queryString skips them
before ever reading the value. -/
def buildImageFields (opt : BuildImageOption) : List Field :=
  [⟨"Name", "", "t", .strVal opt.Name⟩,
   ⟨"SuppressOutput", "", "q", .boolVal opt.SuppressOutput⟩,
   ⟨"NoCache", "", "nocache", .boolVal opt.NoCache⟩,
   ⟨"Pull", "", "pull", .boolVal opt.Pull⟩,
   ⟨"RmTmpContainer", "", "rm", .boolVal opt.RmTmpContainer⟩,
   ⟨"ForceRmTmpContainer", "", "forcerm", .boolVal opt.ForceRmTmpContainer⟩,
   ⟨"Remote", "", "remote", .strVal opt.Remote⟩,
   ⟨"InputStream", "", "-", .strVal ""⟩,
   ⟨"OutputStream", "", "-", .strVal ""⟩,
   ⟨"RawJSONStream", "", "-", .boolVal opt.RawJSONStream⟩,
   ⟨"Auth", "", "-", .strVal ""⟩,
   ⟨"AuthConfigs", "", "-", .strVal ""⟩,
   ⟨"ContextDir", "", "-", .strVal opt.ContextDir⟩]

/-- The error values of the build-image file (lines 11-15), plus the
wrapped createTarStream failure of line 95. -/
inductive BuildError where
  | missingOutputStream
  | missingContext
  | multipleContexts
  | tarError (msg : String)
deriving DecidableEq, Repr

/-- Bytes of "application/tar" (the request body content type set at
line 86). -/
def contentTypeTar : GoStr :=
  [97, 112, 112, 108, 105, 99, 97, 116, 105, 111, 110, 47, 116, 97, 114]

/-- The arguments BuildImage hands to Client.stream (lines 99-100). -/
structure StreamCall where
  method : String
  query : List (String × String)
  setRawTerminal : Bool
  rawJSONStream : Bool
  headers : List (String × GoStr)
  inBody : Option GoStr
  stderrNil : Bool
deriving DecidableEq, Repr

/-- What a BuildImage call does: return a configuration error without
touching the network, or invoke Client.stream — the only place network
I/O happens — with the recorded arguments. -/
inductive BuildOutcome where
  | err (e : BuildError)
  | call (sc : StreamCall)
deriving DecidableEq, Repr

/-- BuildImage (build-image file lines 75-101).  createTarStream is
repository code outside the shown sources, so it is passed in as the
collaborator that turns a context directory into a tar byte stream.
Setting headers["Content-Type"] is modelled by appending the pair (the
key differs from both auth header keys). -/
def buildImage (createTarStream : String → Except String GoStr)
    (opt : BuildImageOption) : BuildOutcome :=
  match opt.OutputStream with
  | none => .err .missingOutputStream
  | some _ =>
    let headers := headersWithAuth opt.Auth opt.AuthConfigs
    if opt.InputStream.isSome ∨ 0 < opt.ContextDir.length then
      let headers := headers ++ [("Content-Type", contentTypeTar)]
      if 0 < opt.ContextDir.length then
        if opt.InputStream.isSome then .err .multipleContexts
        else
          match createTarStream opt.ContextDir with
          | .error msg => .err (.tarError msg)
          | .ok ts =>
            .call { method := "POST"
                    query := queryItems (buildImageFields { opt with InputStream := some ts })
                    setRawTerminal := true
                    rawJSONStream := opt.RawJSONStream
                    headers := headers
                    inBody := some ts
                    stderrNil := true }
      else
        .call { method := "POST"
                query := queryItems (buildImageFields opt)
                setRawTerminal := true
                rawJSONStream := opt.RawJSONStream
                headers := headers
                inBody := opt.InputStream
                stderrNil := true }
    else .err .missingContext

/-! ## Concrete instances used by the witnesses -/

/-- The URL of endpoint string "tcp://h:2376". -/
def tcpSecureURL : URL := { Scheme := "tcp", Host := "h:2376", Path := "" }

/-- tcpSecureURL after resolution. -/
def tcpSecureResolved : URL := { Scheme := "https", Host := "h:2376", Path := "" }

/-- The URL of a unix-socket endpoint string. -/
def unixURL : URL := { Scheme := "unix", Host := "", Path := "/var/run/docker.sock" }

/-- The zero AuthConfiguration. -/
def emptyAuth : AuthConfiguration := { Username := [], Password := [], Email := [], ServerAddress := [] }

/-- The zero AuthConfigurations. -/
def emptyAuthConfigs : AuthConfigurations := { Configs := [] }

/-- A createTarStream collaborator that always fails (never reached by
the witnesses below). -/
def tarFail : String → Except String GoStr := fun _ => .error "tar failed"

/-- Build options with a nil output sink. -/
def optNoOut : BuildImageOption :=
  { Name := "", SuppressOutput := false, NoCache := false, Pull := false
    RmTmpContainer := false, ForceRmTmpContainer := false, Remote := ""
    InputStream := some [], OutputStream := none, RawJSONStream := false
    Auth := emptyAuth, AuthConfigs := emptyAuthConfigs, ContextDir := "" }

/-- Build options with an output sink but no context source. -/
def optNoCtx : BuildImageOption :=
  { optNoOut with OutputStream := some (), InputStream := none }

/-- Build options with both a context directory and an input stream. -/
def optBoth : BuildImageOption :=
  { optNoOut with OutputStream := some (), InputStream := some [], ContextDir := "d" }

/-- Valid build options: output sink and one input stream. -/
def optIn : BuildImageOption :=
  { optNoOut with OutputStream := some (), InputStream := some [7] }

/-- The stream call buildImage makes for optIn. -/
def scW : StreamCall :=
  { method := "POST"
    query := queryItems (buildImageFields optIn)
    setRawTerminal := true
    rawJSONStream := optIn.RawJSONStream
    headers := headersWithAuth optIn.Auth optIn.AuthConfigs ++
      [("Content-Type", contentTypeTar)]
    inBody := optIn.InputStream
    stderrNil := true }

/-- A concrete auth record: username "user", password "pa:s",
email "u@x.co", empty server address. -/
def authW : AuthConfiguration :=
  { Username := [117, 115, 101, 114], Password := [112, 97, 58, 115]
    Email := [117, 64, 120, 46, 99, 111], ServerAddress := [] }

/-! ## Theorems -/

/-- C1: in JSON-event decode mode (Content-Type exactly "application/json",
rawPassthrough false), the events stream "a", progress "50%" with status
"Downloading", then status "Done" produce exactly
"a" ++ "Downloading 50%\r" ++ "Downloading\n" ++ "Done\n" on the stdout
sink, and the decoder returns successfully (no error). -/
theorem json_event_decode_example :
    streamDispatch { StatusCode := 200, ContentType := "application/json",
                     Body := "" } false false = .jsonEvents ∧
    streamJSONEvents
      [{ Status := "", Progress := "", Error := "", Stream := "a" },
       { Status := "Downloading", Progress := "50%", Error := "", Stream := "" },
       { Status := "Done", Progress := "", Error := "", Stream := "" }] =
      ("a" ++ "Downloading 50%\r" ++ "Downloading\n" ++ "Done\n", none) :=
  ⟨by decide, by decide⟩

/-- C2 as stated is false: an event whose error field is non-empty but
whose stream field is also non-empty does not abort the decoder — the
stream branch wins, the event produces output, no error is returned, and
the following event is still processed. -/
theorem error_event_priority_counterexample :
    ({ Status := "", Progress := "", Error := "boom", Stream := "a" } :
      jsonMessage).Error = "boom" ∧
    streamJSONEvents
      [{ Status := "", Progress := "", Error := "boom", Stream := "a" },
       { Status := "Done", Progress := "", Error := "", Stream := "" }] =
      ("a" ++ "Done\n", none) :=
  ⟨by decide, by decide⟩

/-- C2 amended: whenever a decoded event has empty stream and progress
fields and a non-empty error field, the decoder aborts with exactly that
message: the event produces no output (its status field included), and
no event after it is processed. -/
theorem error_event_aborts (m : jsonMessage) (rest : List jsonMessage)
    (hs : m.Stream = "") (hp : m.Progress = "") (he : m.Error ≠ "") :
    streamJSONEvents (m :: rest) = ("", some m.Error) := by
  unfold streamJSONEvents
  rw [if_pos ⟨hs, hp, he⟩]

/-- Witness for the amended C2 at a concrete aborting event. -/
theorem error_event_aborts_witness :
    streamJSONEvents
      [{ Status := "ignored", Progress := "", Error := "boom", Stream := "" },
       { Status := "Done", Progress := "", Error := "", Stream := "" }] =
      ("", some "boom") :=
  error_event_aborts
    { Status := "ignored", Progress := "", Error := "boom", Stream := "" }
    [{ Status := "Done", Progress := "", Error := "", Stream := "" }]
    rfl rfl (by decide)

/-- C3: a response with status outside [200, 400) becomes an API error
carrying exactly that status and the whole body text, and no decode
branch runs on it; a status inside [200, 400) never produces an API
error. -/
theorem stream_status_api_error (resp : Response) (srt rjs : Bool) :
    ((resp.StatusCode < 200 ∨ resp.StatusCode ≥ 400) →
      streamDispatch resp srt rjs = .apiError resp.StatusCode resp.Body) ∧
    (200 ≤ resp.StatusCode → resp.StatusCode < 400 →
      ∀ s b, streamDispatch resp srt rjs ≠ .apiError s b) := by
  unfold streamDispatch
  constructor
  · intro h
    rw [if_pos h]
  · intro h1 h2 s b
    rw [if_neg (by omega)]
    split
    · split <;> simp
    · split <;> simp

/-- Witness for C3: a 500 response becomes the API error; a 200 response
does not. -/
theorem stream_status_api_error_witness :
    streamDispatch { StatusCode := 500, ContentType := "", Body := "oops" }
      false false = .apiError 500 "oops" ∧
    streamDispatch { StatusCode := 200, ContentType := "application/json",
                     Body := "" } false false ≠ .apiError 200 "" :=
  ⟨(stream_status_api_error _ false false).1 (by decide),
   (stream_status_api_error _ false false).2 (by decide) (by decide) 200 ""⟩

/-- C7: on a successful-status response, the JSON branch (event decoding
or raw JSON passthrough) is selected exactly when the Content-Type
header equals "application/json"; any other value — parameters appended
included — selects the binary/raw branch. -/
theorem content_type_branch (resp : Response) (srt rjs : Bool)
    (h1 : 200 ≤ resp.StatusCode) (h2 : resp.StatusCode < 400) :
    (streamDispatch resp srt rjs = .jsonEvents ∨
      streamDispatch resp srt rjs = .jsonRawCopy resp.Body) ↔
      resp.ContentType = "application/json" := by
  unfold streamDispatch
  rw [if_neg (by omega)]
  by_cases hct : resp.ContentType = "application/json"
  · rw [if_pos hct]
    cases rjs <;> simp [hct]
  · rw [if_neg hct]
    constructor
    · intro h
      exfalso
      rcases h with h | h <;> revert h <;> split <;> simp
    · intro h
      exact absurd h hct

/-- Witness for C7: "application/json" selects the JSON branch; the same
type with a parameter appended does not. -/
theorem content_type_branch_witness :
    (streamDispatch { StatusCode := 200, ContentType := "application/json",
                      Body := "b" } false false = .jsonEvents ∨
      streamDispatch { StatusCode := 200, ContentType := "application/json",
                       Body := "b" } false false = .jsonRawCopy "b") ∧
    ¬(streamDispatch { StatusCode := 200,
                       ContentType := "application/json; charset=utf-8",
                       Body := "b" }
        true false = .jsonEvents ∨
      streamDispatch { StatusCode := 200,
                       ContentType := "application/json; charset=utf-8",
                       Body := "b" }
        true false = .jsonRawCopy "b") :=
  ⟨(content_type_branch _ false false (by decide) (by decide)).mpr rfl,
   fun h => absurd ((content_type_branch _ true false (by decide) (by decide)).mp h)
     (by decide)⟩

/-- Helper: the tail checks of parseEndpoint return the URL unchanged. -/
theorem parseEndpointChecks_ok_eq (u u2 : URL)
    (h : parseEndpointChecks u = .ok u2) : u2 = u := by
  unfold parseEndpointChecks at h
  split at h
  · cases h
  · split at h
    · split at h
      · split at h
        · cases h; rfl
        · cases h
      · split at h
        · cases h; rfl
        · cases h
    · cases h; rfl

/-- Helper: the tail checks only pass a whitelisted scheme. -/
theorem parseEndpointChecks_ok_scheme (u u2 : URL)
    (h : parseEndpointChecks u = .ok u2) :
    u.Scheme = "http" ∨ u.Scheme = "https" ∨ u.Scheme = "unix" := by
  unfold parseEndpointChecks at h
  split at h
  · cases h
  · rename_i hc
    by_contra hno
    push_neg at hno
    exact hc ⟨hno.1, hno.2.1, hno.2.2⟩

/-- Helper: every failure of the tail checks is ErrInvalidEndpoint. -/
theorem parseEndpointChecks_error_eq (u : URL) (e : String)
    (h : parseEndpointChecks u = .error e) : e = errInvalidEndpoint := by
  unfold parseEndpointChecks at h
  split at h
  · cases h; rfl
  · split at h
    · split at h
      · split at h
        · cases h
        · cases h; rfl
      · split at h
        · cases h
        · cases h; rfl
    · cases h

/-- C4: for a tcp endpoint whose host carries a port (SplitHostPort
succeeds), a successful resolution rewrites the scheme to "https"
exactly when the port converts to 2376, and to "http" for every other
port value. -/
theorem parseEndpoint_tcp_port_scheme (u u2 : URL) (host port : String)
    (hs : u.Scheme = "tcp") (hsp : splitHostPort u.Host = .ok (host, port))
    (hok : parseEndpoint u = .ok u2) :
    u2.Scheme = if mustInt port = 2376 then "https" else "http" := by
  unfold parseEndpoint at hok
  rw [if_pos hs] at hok
  split at hok
  · rename_i e heq
    rw [hsp] at heq
    cases heq
  · rename_i fst prt heq
    rw [hsp] at heq
    injection heq with heq2
    injection heq2 with heqf heqp
    subst heqf
    subst heqp
    split at hok
    · rename_i h24
      rw [if_pos h24, parseEndpointChecks_ok_eq _ _ hok]
    · rename_i h24
      rw [if_neg h24, parseEndpointChecks_ok_eq _ _ hok]

/-- Witness for C4 at the concrete endpoint "tcp://h:2376". -/
theorem parseEndpoint_tcp_port_scheme_witness :
    tcpSecureResolved.Scheme = if mustInt "2376" = 2376 then "https" else "http" :=
  parseEndpoint_tcp_port_scheme tcpSecureURL tcpSecureResolved "h" "2376"
    rfl (by decide) (by decide)

/-- C5 as stated is false: the endpoint "tcp://foo" — scheme tcp, host
without a port — resolves successfully with its scheme left as "tcp",
which is none of http, https, unix. -/
theorem parseEndpoint_scheme_counterexample :
    parseEndpoint { Scheme := "tcp", Host := "foo", Path := "" } =
      .ok { Scheme := "tcp", Host := "foo", Path := "" } ∧
    ({ Scheme := "tcp", Host := "foo", Path := "" } : URL).Scheme ≠ "http" ∧
    ({ Scheme := "tcp", Host := "foo", Path := "" } : URL).Scheme ≠ "https" ∧
    ({ Scheme := "tcp", Host := "foo", Path := "" } : URL).Scheme ≠ "unix" :=
  ⟨by decide, by decide, by decide, by decide⟩

/-- C5 amended: a successful resolution yields scheme http, https or
unix, except for a tcp endpoint whose host lacks a port, which is
returned unchanged with scheme "tcp"; and every resolution failure
carries ErrInvalidEndpoint. -/
theorem parseEndpoint_scheme_whitelist (u : URL) :
    (∀ u2, parseEndpoint u = .ok u2 →
      u2.Scheme = "http" ∨ u2.Scheme = "https" ∨ u2.Scheme = "unix" ∨
        (u2.Scheme = "tcp" ∧ u2 = u ∧
          splitHostPort u.Host = .error .missingPort)) ∧
    (∀ e, parseEndpoint u = .error e → e = errInvalidEndpoint) := by
  constructor
  · intro u2 hok
    unfold parseEndpoint at hok
    split at hok
    · rename_i htcp
      split at hok
      · rename_i e heq
        split at hok
        · rename_i hmp
          cases hok
          subst hmp
          exact Or.inr (Or.inr (Or.inr ⟨htcp, rfl, heq⟩))
        · cases hok
      · rename_i fst prt heq
        split at hok
        · rw [parseEndpointChecks_ok_eq _ _ hok]
          exact Or.inr (Or.inl rfl)
        · rw [parseEndpointChecks_ok_eq _ _ hok]
          exact Or.inl rfl
    · have he := parseEndpointChecks_ok_eq _ _ hok
      subst he
      rcases parseEndpointChecks_ok_scheme _ _ hok with h | h | h
      · exact Or.inl h
      · exact Or.inr (Or.inl h)
      · exact Or.inr (Or.inr (Or.inl h))
  · intro e herr
    unfold parseEndpoint at herr
    split at herr
    · split at herr
      · split at herr
        · cases herr
        · cases herr; rfl
      · split at herr
        · exact parseEndpointChecks_error_eq _ _ herr
        · exact parseEndpointChecks_error_eq _ _ herr
    · exact parseEndpointChecks_error_eq _ _ herr

/-- Witness for the amended C5 at a unix endpoint and at a bad-scheme
endpoint. -/
theorem parseEndpoint_scheme_whitelist_witness :
    (unixURL.Scheme = "http" ∨ unixURL.Scheme = "https" ∨
      unixURL.Scheme = "unix" ∨
      (unixURL.Scheme = "tcp" ∧ unixURL = unixURL ∧
        splitHostPort unixURL.Host = .error .missingPort)) ∧
    errInvalidEndpoint = errInvalidEndpoint :=
  ⟨(parseEndpoint_scheme_whitelist unixURL).1 unixURL (by decide),
   (parseEndpoint_scheme_whitelist
      { Scheme := "ftp", Host := "h:80", Path := "" }).2
      errInvalidEndpoint (by decide)⟩

/-- Helper: a non-empty string has positive length. -/
theorem strLengthPos (s : String) (h : s ≠ "") : 0 < s.length := by
  cases s with
  | mk l =>
    cases l with
    | nil => exact absurd rfl h
    | cons c cs => simp [String.length]

/-- C6: BuildImage returns MissingOutputStream on a nil output sink,
MissingContext when neither context source is supplied, and
MultipleContexts when both are; in each case the result is a
configuration error (`BuildOutcome.err`), i.e. Client.stream — the only
place network I/O happens — is never invoked. -/
theorem buildImage_validation (tar : String → Except String GoStr)
    (opt : BuildImageOption) :
    (opt.OutputStream = none → buildImage tar opt = .err .missingOutputStream) ∧
    (opt.OutputStream ≠ none → opt.InputStream = none → opt.ContextDir = "" →
      buildImage tar opt = .err .missingContext) ∧
    (opt.OutputStream ≠ none → opt.InputStream ≠ none → opt.ContextDir ≠ "" →
      buildImage tar opt = .err .multipleContexts) := by
  refine ⟨?_, ?_, ?_⟩
  · intro h
    unfold buildImage
    rw [h]
  · intro hout hin hcd
    cases hos : opt.OutputStream with
    | none => exact absurd hos hout
    | some u =>
      unfold buildImage
      rw [hos, if_neg]
      rw [hin, hcd]
      simp
  · intro hout hin hcd
    cases hos : opt.OutputStream with
    | none => exact absurd hos hout
    | some u =>
      cases hi : opt.InputStream with
      | none => exact absurd hi hin
      | some v =>
        unfold buildImage
        rw [hos, if_pos (Or.inl (by rw [hi]; rfl)),
          if_pos (strLengthPos _ hcd), if_pos (by rw [hi]; rfl)]

/-- Witness for C6 at three concrete option records. -/
theorem buildImage_validation_witness :
    buildImage tarFail optNoOut = .err .missingOutputStream ∧
    buildImage tarFail optNoCtx = .err .missingContext ∧
    buildImage tarFail optBoth = .err .multipleContexts :=
  ⟨(buildImage_validation tarFail optNoOut).1 rfl,
   (buildImage_validation tarFail optNoCtx).2.1 (by decide) rfl rfl,
   (buildImage_validation tarFail optBoth).2.2 (by decide) (by decide) (by decide)⟩

/-- C8: per-field query encoding — a false boolean contributes no item,
a true one contributes key=1; a non-positive integer is omitted, the
value 5 appears as key=5; an empty string is omitted; and a field tagged
"-" contributes nothing regardless of its value, so it never appears in
the query string. -/
theorem queryString_encoding (nm tag : String) (i : Int) (v : FieldValue)
    (htag : tag ≠ "") (hdash : tag ≠ "-") :
    fieldItems { Name := nm, PkgPath := "", Tag := tag, Value := .boolVal false } = [] ∧
    fieldItems { Name := nm, PkgPath := "", Tag := tag, Value := .boolVal true } = [(tag, "1")] ∧
    (i ≤ 0 →
      fieldItems { Name := nm, PkgPath := "", Tag := tag, Value := .intVal i } = []) ∧
    fieldItems { Name := nm, PkgPath := "", Tag := tag, Value := .intVal 5 } = [(tag, "5")] ∧
    fieldItems { Name := nm, PkgPath := "", Tag := tag, Value := .strVal "" } = [] ∧
    fieldItems { Name := nm, PkgPath := "", Tag := "-", Value := v } = [] ∧
    queryItems [{ Name := nm, PkgPath := "", Tag := "-", Value := v }] = [] := by
  refine ⟨?_, ?_, ?_, ?_, ?_, ?_, ?_⟩
  · simp [fieldItems, hdash, htag]
  · simp [fieldItems, hdash, htag]
  · intro hi
    simp [fieldItems, hdash, htag]
    omega
  · simp [fieldItems, hdash, htag]
    rfl
  · simp [fieldItems, hdash, htag]
  · simp [fieldItems]
  · simp [queryItems, fieldItems]

/-- Witness for C8 at the concrete tag "pull" and a dash-tagged field. -/
theorem queryString_encoding_witness :
    fieldItems { Name := "Pull", PkgPath := "", Tag := "pull", Value := .boolVal false } = [] ∧
    fieldItems { Name := "Pull", PkgPath := "", Tag := "pull", Value := .boolVal true } = [("pull", "1")] ∧
    fieldItems { Name := "Pull", PkgPath := "", Tag := "pull", Value := .intVal 0 } = [] ∧
    fieldItems { Name := "Pull", PkgPath := "", Tag := "pull", Value := .intVal 5 } = [("pull", "5")] ∧
    fieldItems { Name := "Pull", PkgPath := "", Tag := "pull", Value := .strVal "" } = [] ∧
    fieldItems { Name := "ContextDir", PkgPath := "", Tag := "-", Value := .strVal "x" } = [] := by
  have h := queryString_encoding "Pull" "pull" 0 (.strVal "x") (by decide) (by decide)
  have h2 := queryString_encoding "ContextDir" "pull" 0 (.strVal "x") (by decide) (by decide)
  exact ⟨h.1, h.2.1, h.2.2.1 le_rfl, h.2.2.2.1, h.2.2.2.2.1, h2.2.2.2.2.2.1⟩

/-- C10: whenever BuildImage reaches Client.stream, it passes
setRawTerminal = true and a nil stderr sink; hence on the BuildImage
path every successful response whose Content-Type is not
"application/json" is copied verbatim to the output stream and the
binary demultiplexer never runs. -/
theorem buildImage_raw_terminal (tar : String → Except String GoStr)
    (opt : BuildImageOption) (sc : StreamCall)
    (hcall : buildImage tar opt = .call sc) :
    sc.setRawTerminal = true ∧ sc.stderrNil = true ∧
    (∀ resp : Response, 200 ≤ resp.StatusCode → resp.StatusCode < 400 →
      resp.ContentType ≠ "application/json" →
      streamDispatch resp sc.setRawTerminal sc.rawJSONStream = .rawCopy resp.Body ∧
      streamDispatch resp sc.setRawTerminal sc.rawJSONStream ≠ .demux) := by
  have hsrt : sc.setRawTerminal = true ∧ sc.stderrNil = true := by
    unfold buildImage at hcall
    split at hcall
    · cases hcall
    · split at hcall
      · split at hcall
        · split at hcall
          · cases hcall
          · split at hcall
            · cases hcall
            · cases hcall
              exact ⟨rfl, rfl⟩
        · cases hcall
          exact ⟨rfl, rfl⟩
      · cases hcall
  refine ⟨hsrt.1, hsrt.2, ?_⟩
  intro resp h1 h2 hct
  rw [hsrt.1]
  unfold streamDispatch
  rw [if_neg (by omega), if_neg hct, if_pos rfl]
  exact ⟨rfl, by simp⟩

/-- Witness for C10: buildImage on optIn reaches the stream call scW,
and a successful text/plain response under its flags is copied verbatim. -/
theorem buildImage_raw_terminal_witness :
    streamDispatch { StatusCode := 200, ContentType := "text/plain", Body := "hello" }
      scW.setRawTerminal scW.rawJSONStream = .rawCopy "hello" ∧
    streamDispatch { StatusCode := 200, ContentType := "text/plain", Body := "hello" }
      scW.setRawTerminal scW.rawJSONStream ≠ .demux :=
  (buildImage_raw_terminal tarFail optIn scW rfl).2.2
    { StatusCode := 200, ContentType := "text/plain", Body := "hello" }
    (by decide) (by decide) (by decide)

/-- Helper: hexVal inverts hexDigit below 16. -/
theorem hexVal_hexDigit (n : Nat) (h : n < 16) : hexVal (hexDigit n) = some n := by
  unfold hexVal hexDigit
  split_ifs <;> first | omega | (congr 1; omega)

/-- Helper: escaping never shortens a string. -/
theorem escapeBytes_length_ge : ∀ s : GoStr, s.length ≤ (escapeBytes s).length
  | [] => by simp [escapeBytes]
  | b :: s => by
    have ih := escapeBytes_length_ge s
    simp only [escapeBytes, List.length_append, List.length_cons]
    split_ifs <;> simp <;> omega

/-- Helper: parseStringBodyAux inverts escapeBytes up to the closing
quote, given fuel beyond the decoded length. -/
theorem parseStringBodyAux_escape : ∀ (s : GoStr) (rest : GoStr) (fuel : Nat),
    s.length < fuel →
    parseStringBodyAux fuel (escapeBytes s ++ (34 :: rest)) = some (s, rest)
  | [], rest, fuel, hf => by
    cases fuel with
    | zero => omega
    | succ f =>
      rw [show escapeBytes [] ++ (34 :: rest) = 34 :: rest from by simp [escapeBytes]]
      simp [parseStringBodyAux]
  | b :: s, rest, fuel, hf => by
    cases fuel with
    | zero => simp at hf
    | succ f =>
      have ih := parseStringBodyAux_escape s rest f (by simp at hf ⊢; omega)
      by_cases h34 : b = 34
      · subst h34
        rw [show escapeBytes (34 :: s) ++ (34 :: rest) =
              92 :: (34 :: (escapeBytes s ++ (34 :: rest))) from by simp [escapeBytes]]
        simp [parseStringBodyAux, parseEscapeSeq, unescapeByte, ih]
      by_cases h92 : b = 92
      · subst h92
        rw [show escapeBytes (92 :: s) ++ (34 :: rest) =
              92 :: (92 :: (escapeBytes s ++ (34 :: rest))) from by simp [escapeBytes]]
        simp [parseStringBodyAux, parseEscapeSeq, unescapeByte, ih]
      by_cases h10 : b = 10
      · subst h10
        rw [show escapeBytes (10 :: s) ++ (34 :: rest) =
              92 :: (110 :: (escapeBytes s ++ (34 :: rest))) from by simp [escapeBytes]]
        simp [parseStringBodyAux, parseEscapeSeq, unescapeByte, ih]
      by_cases h13 : b = 13
      · subst h13
        rw [show escapeBytes (13 :: s) ++ (34 :: rest) =
              92 :: (114 :: (escapeBytes s ++ (34 :: rest))) from by simp [escapeBytes]]
        simp [parseStringBodyAux, parseEscapeSeq, unescapeByte, ih]
      by_cases h9 : b = 9
      · subst h9
        rw [show escapeBytes (9 :: s) ++ (34 :: rest) =
              92 :: (116 :: (escapeBytes s ++ (34 :: rest))) from by simp [escapeBytes]]
        simp [parseStringBodyAux, parseEscapeSeq, unescapeByte, ih]
      by_cases hhex : b < 32 ∨ b = 60 ∨ b = 62 ∨ b = 38
      · have hd1 := hexVal_hexDigit (b / 16) (by omega)
        have hd2 := hexVal_hexDigit (b % 16) (by omega)
        have hlt : b < 128 := by omega
        rw [show escapeBytes (b :: s) ++ (34 :: rest) =
              92 :: (117 :: (48 :: (48 :: (hexDigit (b / 16) :: (hexDigit (b % 16) ::
                (escapeBytes s ++ (34 :: rest))))))) from by
            simp [escapeBytes, h34, h92, h10, h13, h9, hhex]]
        have hb : ((0 * 16 + 0) * 16 + b / 16) * 16 + b % 16 = b := by omega
        have hb2 : b / 16 * 16 + b % 16 = b := by omega
        have h48 : hexVal 48 = some 0 := rfl
        simp [parseStringBodyAux, parseEscapeSeq, unescapeByte, h48, hd1, hd2,
          hb, hb2, hlt, ih]
      · rw [show escapeBytes (b :: s) ++ (34 :: rest) =
              b :: (escapeBytes s ++ (34 :: rest)) from by
            simp [escapeBytes, h34, h92, h10, h13, h9, hhex]]
        simp [parseStringBodyAux, h34, h92, ih]

/-- Helper: parseStringBody inverts escapeBytes up to the closing quote. -/
theorem parseStringBody_escape (s rest : GoStr) :
    parseStringBody (escapeBytes s ++ (34 :: rest)) = some (s, rest) := by
  unfold parseStringBody
  apply parseStringBodyAux_escape
  have := escapeBytes_length_ge s
  simp only [List.length_append, List.length_cons]
  omega

/-- Helper: parseMember inverts one rendered member. -/
theorem parseMember_render (k v rest : GoStr) :
    parseMember (jsonQuote k ++ [58] ++ jsonQuote v ++ rest) = some ((k, v), rest) := by
  have h1 := parseStringBody_escape k (58 :: (34 :: (escapeBytes v ++ (34 :: rest))))
  have h2 := parseStringBody_escape v rest
  simp only [jsonQuote, List.cons_append, List.append_assoc, List.singleton_append,
    List.nil_append] at h1 h2 ⊢
  rw [parseMember.eq_def]
  simp [h1, h2]

/-- Helper: rendering members never yields fewer bytes than members. -/
theorem renderMembers_length_ge : ∀ ms : List (GoStr × GoStr),
    ms.length ≤ (renderMembers ms).length
  | [] => by simp [renderMembers]
  | [(k, v)] => by
    simp [renderMembers, jsonQuote]
  | (k, v) :: (m2 :: ms2) => by
    have ih := renderMembers_length_ge (m2 :: ms2)
    simp only [renderMembers, jsonQuote, List.length_append, List.length_cons,
      List.length_singleton] at ih ⊢
    omega

/-- Helper: parseMembersAux inverts renderMembers up to the closing
brace, given fuel at or beyond the member count. -/
theorem parseMembersAux_render : ∀ (ms : List (GoStr × GoStr)) (fuel : Nat),
    ms ≠ [] → ms.length ≤ fuel + 1 →
    parseMembersAux fuel (renderMembers ms ++ [125]) = some ms
  | [], _, hne, _ => absurd rfl hne
  | [(k, v)], fuel, _, _ => by
    have h := parseMember_render k v [125]
    rw [show renderMembers [(k, v)] ++ [125] =
          jsonQuote k ++ [58] ++ jsonQuote v ++ [125] from by simp [renderMembers]]
    rw [parseMembersAux.eq_def]
    simp only [List.append_assoc, List.singleton_append, List.cons_append, List.nil_append] at h
    simp [h]
  | (k, v) :: (m2 :: ms2), fuel, _, hf => by
    have h := parseMember_render k v (44 :: (renderMembers (m2 :: ms2) ++ [125]))
    cases fuel with
    | zero =>
      simp only [List.length_cons] at hf
      omega
    | succ f =>
      have ih := parseMembersAux_render (m2 :: ms2) f (by simp)
        (by simp only [List.length_cons] at hf ⊢; omega)
      rw [show renderMembers ((k, v) :: (m2 :: ms2)) ++ [125] =
            jsonQuote k ++ [58] ++ jsonQuote v ++
              (44 :: (renderMembers (m2 :: ms2) ++ [125])) from by
          simp [renderMembers]]
      rw [parseMembersAux.eq_def]
      simp only [List.append_assoc, List.singleton_append, List.cons_append, List.nil_append] at h
      simp [h, ih]

/-- Helper: parseObject inverts marshalAuth down to the member list. -/
theorem parseObject_marshal (a : AuthConfiguration) :
    parseObject (marshalAuth a) = some (authMembers a) := by
  unfold marshalAuth
  cases hms : authMembers a with
  | nil =>
    rw [show renderMembers [] ++ [125] = [125] from by simp [renderMembers]]
    rw [parseObject.eq_def]
    simp
  | cons m ms2 =>
    obtain ⟨k, v⟩ := m
    rw [parseObject.eq_def]
    have hlen := renderMembers_length_ge ((k, v) :: ms2)
    have hne : renderMembers ((k, v) :: ms2) ++ [125] ≠ [125] := by
      intro hc
      have := congrArg List.length hc
      simp only [List.length_append, List.length_cons, List.length_singleton,
        List.length_nil] at this hlen
      omega
    simp only [hne, if_neg, ite_false]
    rw [parseMembersAux_render ((k, v) :: ms2) _ (by simp)]
    simp only [List.length_append, List.length_cons, List.length_singleton] at hlen ⊢
    omega

/-- Helper: lookup distributes over append. -/
theorem lookupMember_append (xs ys : List (GoStr × GoStr)) (key : GoStr) :
    lookupMember (xs ++ ys) key =
      match lookupMember xs key with
      | some v => some v
      | none => lookupMember ys key := by
  induction xs with
  | nil => simp [lookupMember]
  | cons m xs ih =>
    obtain ⟨k, v⟩ := m
    by_cases h : k = key <;> simp [lookupMember, h, ih]

/-- Helper: looking up the key of a leading optional member. -/
theorem lookupMember_optMember_self (k v : GoStr) (rest : List (GoStr × GoStr)) :
    lookupMember (optMember k v ++ rest) k =
      if v = [] then lookupMember rest k else some v := by
  unfold optMember
  split <;> simp [lookupMember]

/-- Helper: a leading optional member with a different key is skipped. -/
theorem lookupMember_optMember_ne (k v key : GoStr) (rest : List (GoStr × GoStr))
    (h : k ≠ key) :
    lookupMember (optMember k v ++ rest) key = lookupMember rest key := by
  unfold optMember
  split <;> simp [lookupMember, h]

/-- Helper: lookup in a lone optional member with a different key. -/
theorem lookupMember_optMember_ne_nil (k v key : GoStr) (h : k ≠ key) :
    lookupMember (optMember k v) key = none := by
  unfold optMember
  split <;> simp [lookupMember, h]

/-- Helper: lookup in a lone optional member at its own key. -/
theorem lookupMember_optMember_self_nil (k v : GoStr) :
    lookupMember (optMember k v) k = if v = [] then none else some v := by
  unfold optMember
  split <;> simp [lookupMember]

/-- Helper: the omitempty encoding recovers the original field. -/
theorem optValueGetD (v : GoStr) :
    (if v = [] then none else some v).getD ([] : GoStr) = v := by
  split
  · rename_i h
    rw [h]
    rfl
  · rfl

/-- Helper: unmarshalling a marshalled AuthConfiguration restores it. -/
theorem unmarshal_marshal (a : AuthConfiguration) :
    unmarshalAuth (marshalAuth a) = some a := by
  unfold unmarshalAuth
  rw [parseObject_marshal]
  have hu : lookupMember (authMembers a) usernameKey =
      if a.Username = [] then none else some a.Username := by
    unfold authMembers
    rw [lookupMember_optMember_self,
      lookupMember_optMember_ne _ _ _ _ (by decide),
      lookupMember_optMember_ne _ _ _ _ (by decide),
      lookupMember_optMember_ne_nil _ _ _ (by decide)]
  have hp : lookupMember (authMembers a) passwordKey =
      if a.Password = [] then none else some a.Password := by
    unfold authMembers
    rw [lookupMember_optMember_ne _ _ _ _ (by decide),
      lookupMember_optMember_self,
      lookupMember_optMember_ne _ _ _ _ (by decide),
      lookupMember_optMember_ne_nil _ _ _ (by decide)]
  have he : lookupMember (authMembers a) emailKey =
      if a.Email = [] then none else some a.Email := by
    unfold authMembers
    rw [lookupMember_optMember_ne _ _ _ _ (by decide),
      lookupMember_optMember_ne _ _ _ _ (by decide),
      lookupMember_optMember_self,
      lookupMember_optMember_ne_nil _ _ _ (by decide)]
  have hs : lookupMember (authMembers a) serveraddressKey =
      if a.ServerAddress = [] then none else some a.ServerAddress := by
    unfold authMembers
    rw [lookupMember_optMember_ne _ _ _ _ (by decide),
      lookupMember_optMember_ne _ _ _ _ (by decide),
      lookupMember_optMember_ne _ _ _ _ (by decide),
      lookupMember_optMember_self_nil]
  simp only [hu, hp, he, hs, optValueGetD]

/-- Helper: hexDigit stays below 256 on digit values. -/
theorem hexDigit_lt (n : Nat) (h : n < 16) : hexDigit n < 256 := by
  unfold hexDigit
  split <;> omega

/-- Helper: escaping a valid byte string yields valid bytes. -/
theorem escapeBytes_valid : ∀ s : GoStr, validStr s → validStr (escapeBytes s)
  | [], _ => by intro b hb; simp [escapeBytes] at hb
  | c :: cs, h => by
    have hc : c < 256 := h c (by simp)
    have ih := escapeBytes_valid cs (fun x hx => h x (by simp [hx]))
    have hd1 : hexDigit (c / 16) < 256 := hexDigit_lt _ (by omega)
    have hd2 : hexDigit (c % 16) < 256 := hexDigit_lt _ (by omega)
    intro b hb
    simp only [escapeBytes, List.mem_append] at hb
    rcases hb with hb | hb
    · revert hb
      split_ifs <;> intro hb <;>
        simp only [List.mem_cons, List.mem_singleton, List.not_mem_nil,
          or_false] at hb <;> omega
    · exact ih b hb

/-- Helper: quoting a valid byte string yields valid bytes. -/
theorem jsonQuote_valid (s : GoStr) (h : validStr s) : validStr (jsonQuote s) := by
  intro b hb
  simp only [jsonQuote, List.mem_cons, List.mem_append, List.mem_singleton,
    List.not_mem_nil, or_false] at hb
  rcases hb with rfl | hb | rfl
  · omega
  · exact escapeBytes_valid s h b hb
  · omega

/-- All keys and values of a member list are valid byte strings. -/
def validMembers (ms : List (GoStr × GoStr)) : Prop :=
  ∀ kv ∈ ms, validStr kv.1 ∧ validStr kv.2

/-- Helper: rendering valid members yields valid bytes. -/
theorem renderMembers_valid : ∀ ms : List (GoStr × GoStr), validMembers ms →
    validStr (renderMembers ms)
  | [], _ => by intro b hb; simp [renderMembers] at hb
  | [(k, v)], h => by
    have hk := (h (k, v) (by simp)).1
    have hv := (h (k, v) (by simp)).2
    intro b hb
    simp only [renderMembers, List.mem_append, List.mem_singleton] at hb
    rcases hb with (hb | rfl) | hb
    · exact jsonQuote_valid k hk b hb
    · omega
    · exact jsonQuote_valid v hv b hb
  | (k, v) :: (m2 :: ms2), h => by
    have hk := (h (k, v) (by simp)).1
    have hv := (h (k, v) (by simp)).2
    have ih := renderMembers_valid (m2 :: ms2) (fun kv hkv => h kv (by simp [hkv]))
    intro b hb
    simp only [renderMembers, List.mem_append, List.mem_singleton] at hb
    rcases hb with (((hb | rfl) | hb) | rfl) | hb
    · exact jsonQuote_valid k hk b hb
    · omega
    · exact jsonQuote_valid v hv b hb
    · omega
    · exact ih b hb

/-- Helper: the members of a valid AuthConfiguration are valid. -/
theorem authMembers_valid (a : AuthConfiguration) (hv : validAuth a) :
    validMembers (authMembers a) := by
  intro kv hkv
  simp only [authMembers, optMember, List.mem_append] at hkv
  obtain ⟨h1, h2, h3, h4⟩ := hv
  have hku : validStr usernameKey := by decide
  have hkp : validStr passwordKey := by decide
  have hke : validStr emailKey := by decide
  have hks : validStr serveraddressKey := by decide
  rcases hkv with hkv | hkv | hkv | hkv
  · revert hkv
    split
    · intro hkv
      simp at hkv
    · intro hkv
      simp only [List.mem_singleton] at hkv
      subst hkv
      exact ⟨hku, h1⟩
  · revert hkv
    split
    · intro hkv
      simp at hkv
    · intro hkv
      simp only [List.mem_singleton] at hkv
      subst hkv
      exact ⟨hkp, h2⟩
  · revert hkv
    split
    · intro hkv
      simp at hkv
    · intro hkv
      simp only [List.mem_singleton] at hkv
      subst hkv
      exact ⟨hke, h3⟩
  · revert hkv
    split
    · intro hkv
      simp at hkv
    · intro hkv
      simp only [List.mem_singleton] at hkv
      subst hkv
      exact ⟨hks, h4⟩

/-- Helper: marshalling a valid AuthConfiguration yields valid bytes. -/
theorem marshalAuth_valid (a : AuthConfiguration) (hv : validAuth a) :
    validStr (marshalAuth a) := by
  intro b hb
  simp only [marshalAuth, List.mem_cons, List.mem_append, List.mem_singleton,
    List.not_mem_nil, or_false] at hb
  rcases hb with rfl | hb | rfl
  · omega
  · exact renderMembers_valid (authMembers a) (authMembers_valid a hv) b hb
  · omega

/-- Helper: base64 alphabet characters are never the padding byte. -/
theorem b64Char_ne_61 (n : Nat) : b64Char n ≠ 61 := by
  unfold b64Char
  split_ifs <;> omega

/-- Helper: the base64 alphabet decodes back to the 6-bit value. -/
theorem b64Dec_b64Char (n : Nat) (h : n < 64) : b64Dec (b64Char n) = some n := by
  unfold b64Dec b64Char
  split_ifs <;> first | omega | (congr 1; omega)

/-- Helper: URL-safe base64 decoding inverts encoding on byte strings. -/
theorem b64_roundtrip : ∀ bs : GoStr, validStr bs →
    base64URLDecode (base64URLEncode bs) = some bs
  | [], _ => by simp [base64URLEncode, base64URLDecode]
  | [b0], h => by
    have h0 : b0 < 256 := h b0 (by simp)
    rw [show base64URLEncode [b0] =
          [b64Char (b0 / 4), b64Char (b0 % 4 * 16), 61, 61] from by
        rw [base64URLEncode.eq_def]]
    rw [base64URLDecode.eq_def]
    simp [b64Dec_b64Char _ (show b0 / 4 < 64 by omega),
      b64Dec_b64Char _ (show b0 % 4 * 16 < 64 by omega)]
    omega
  | [b0, b1], h => by
    have h0 : b0 < 256 := h b0 (by simp)
    have h1 : b1 < 256 := h b1 (by simp)
    rw [show base64URLEncode [b0, b1] =
          [b64Char (b0 / 4), b64Char (b0 % 4 * 16 + b1 / 16),
           b64Char (b1 % 16 * 4), 61] from by
        rw [base64URLEncode.eq_def]]
    rw [base64URLDecode.eq_def]
    simp [b64Dec_b64Char _ (show b0 / 4 < 64 by omega),
      b64Dec_b64Char _ (show b0 % 4 * 16 + b1 / 16 < 64 by omega),
      b64Dec_b64Char _ (show b1 % 16 * 4 < 64 by omega),
      b64Char_ne_61]
    constructor <;> omega
  | b0 :: b1 :: b2 :: rest, h => by
    have h0 : b0 < 256 := h b0 (by simp)
    have h1 : b1 < 256 := h b1 (by simp)
    have h2 : b2 < 256 := h b2 (by simp)
    have ih := b64_roundtrip rest (fun x hx => h x (by simp [hx]))
    rw [show base64URLEncode (b0 :: b1 :: b2 :: rest) =
          b64Char (b0 / 4) :: b64Char (b0 % 4 * 16 + b1 / 16) ::
            b64Char (b1 % 16 * 4 + b2 / 64) :: b64Char (b2 % 64) ::
              base64URLEncode rest from by
        rw [base64URLEncode.eq_def]]
    rw [base64URLDecode.eq_def]
    simp [b64Dec_b64Char _ (show b0 / 4 < 64 by omega),
      b64Dec_b64Char _ (show b0 % 4 * 16 + b1 / 16 < 64 by omega),
      b64Dec_b64Char _ (show b1 % 16 * 4 + b2 / 64 < 64 by omega),
      b64Dec_b64Char _ (show b2 % 64 < 64 by omega),
      b64Char_ne_61, ih]
    refine ⟨by omega, by omega, by omega⟩

/-- C9: headersWithAuth carries, under X-Registry-Auth, the URL-safe
base64 of the marshalled AuthConfiguration, and base64-decoding that
header then JSON-decoding the result restores every field of the
original record exactly. -/
theorem auth_header_roundtrip (a : AuthConfiguration) (cs : AuthConfigurations)
    (hv : validAuth a) :
    headersWithAuth a cs =
      [("X-Registry-Auth", base64URLEncode (marshalAuth a)),
       ("X-Registry-Config", base64URLEncode (marshalAuthConfigurations cs))] ∧
    (base64URLDecode (base64URLEncode (marshalAuth a))).bind unmarshalAuth =
      some a := by
  refine ⟨rfl, ?_⟩
  rw [b64_roundtrip _ (marshalAuth_valid a hv)]
  exact unmarshal_marshal a

/-- Witness for C9 at the concrete record authW. -/
theorem auth_header_roundtrip_witness :
    (base64URLDecode (base64URLEncode (marshalAuth authW))).bind unmarshalAuth =
      some authW :=
  (auth_header_roundtrip authW emptyAuthConfigs (by decide)).2

end Rudder
